import Mathlib

/-!
Verification of the block abstraction layer of `crates/primitives-traits/src/block/mod.rs`.

The file embeds, shallowly:
- the reference block implementation (`impl Block for alloy_consensus::Block<T>`):
  a block is exactly a header paired with a body, and `new` / `header` / `body` /
  `split` are direct field assembly / access;
- the `Block` / `BlockBody` contracts as Lean structures of operations, with the
  `OmmerHeader = Header` type-equality bound carried as a field;
- the `FullBlock` classification as a bundle of capability facts over a type;
- the test-only mutation contract (`TestBlock`) as functional field updates;
- a canonical binary codec for the reference block, modelled from the spec
  (the concrete RLP codec is an external collaborator, not part of this core).
-/

namespace Alloy

/-- Modelled from the spec: the concrete default header type
(`alloy_consensus::Header`, external to this core).  The spec's header field
boundary names the fields this layer touches: parent hash, block number,
state root, difficulty.  Hash-like fields are 256-bit words, embedded as
naturals below 2^256 where the bound matters. -/
structure Header where
  parent_hash : Nat
  number : Nat
  state_root : Nat
  difficulty : Nat
deriving DecidableEq, Repr

/-- The default (zero) header, as produced by the derived Rust `Default`. -/
def Header.defaultVal : Header := ⟨0, 0, 0, 0⟩

/-- Modelled from the spec: a signed-transaction value (the transaction type is
supplied externally and is opaque to this core beyond being encodable and
signer-recoverable); embedded as a signer together with a payload word. -/
structure Tx where
  signer : Nat
  payload : Nat
deriving DecidableEq, Repr

/-- Modelled from the spec: the concrete body type
(`alloy_consensus::BlockBody<T>`): an ordered transaction sequence and an
ordered ommer-header sequence, the ommers using the same header type as the
enclosing block. -/
structure BlockBody (T : Type) where
  transactions : List T
  ommers : List Header
deriving DecidableEq

/-- The default body: empty transaction list, empty ommer list. -/
def BlockBody.defaultVal (T : Type) : BlockBody T := ⟨[], []⟩

/-- The reference block type (`alloy_consensus::Block<T>`): exactly one header
and one body, nothing else.  The structure projections `Block.header` and
`Block.body` are the accessors `fn header(&self)` / `fn body(&self)` of the
source, which return the fields unchanged. -/
structure Block (T : Type) where
  header : Header
  body : BlockBody T
deriving DecidableEq

/-- The default block, as produced by the derived Rust `Default`. -/
def Block.defaultVal (T : Type) : Block T := ⟨Header.defaultVal, BlockBody.defaultVal T⟩

/-- `fn new(header, body) { Self { header, body } }`: pure composition. -/
def Block.new {T : Type} (header : Header) (body : BlockBody T) : Block T :=
  ⟨header, body⟩

/-- `fn split(self) { (self.header, self.body) }`: decomposition into parts. -/
def Block.split {T : Type} (b : Block T) : Header × BlockBody T :=
  (b.header, b.body)

/-- Modelled from the spec: the `TestHeader` setter for the parent hash writes
that named field in place and nothing else. -/
def Header.set_parent_hash (h : Header) (x : Nat) : Header :=
  { h with parent_hash := x }

/-- Modelled from the spec: the `TestHeader` setter for the block number. -/
def Header.set_block_number (h : Header) (n : Nat) : Header :=
  { h with number := n }

/-- Modelled from the spec: the `TestHeader` setter for the state root. -/
def Header.set_state_root (h : Header) (x : Nat) : Header :=
  { h with state_root := x }

/-- Modelled from the spec: the `TestHeader` setter for the difficulty. -/
def Header.set_difficulty (h : Header) (d : Nat) : Header :=
  { h with difficulty := d }

/-- `TestBlock::set_header`: wholesale header replacement (direct field write
through `header_mut`). -/
def Block.set_header {T : Type} (b : Block T) (h : Header) : Block T :=
  { b with header := h }

/-- `TestBlock::set_parent_hash`: delegates to the header's own setter through
`header_mut`. -/
def Block.set_parent_hash {T : Type} (b : Block T) (x : Nat) : Block T :=
  { b with header := b.header.set_parent_hash x }

/-- `TestBlock::set_block_number`: delegates to the header's own setter through
`header_mut`. -/
def Block.set_block_number {T : Type} (b : Block T) (n : Nat) : Block T :=
  { b with header := b.header.set_block_number n }

/-- `TestBlock::set_state_root`: delegates to the header's own setter through
`header_mut`. -/
def Block.set_state_root {T : Type} (b : Block T) (s : Nat) : Block T :=
  { b with header := b.header.set_state_root s }

/-- `TestBlock::set_difficulty`: delegates to the header's own setter through
`header_mut`. -/
def Block.set_difficulty {T : Type} (b : Block T) (d : Nat) : Block T :=
  { b with header := b.header.set_difficulty d }

end Alloy

namespace Codec

/-- Modelled from the spec: the canonical binary encoding of a header is the
sequence of its fields (the concrete wire format is owned by the external
codec; the spec requires only a canonical encode with a matching decode). -/
def encodeHeader (h : Alloy.Header) : List Nat :=
  [h.parent_hash, h.number, h.state_root, h.difficulty]

/-- Modelled from the spec: header decoding, consuming the encoded fields from
the front of the stream and returning the remainder. -/
def decodeHeader : List Nat → Option (Alloy.Header × List Nat)
  | p :: n :: s :: d :: rest => some (⟨p, n, s, d⟩, rest)
  | _ => none

/-- Modelled from the spec: transaction encoding for the model transaction
type (signer then payload). -/
def encodeTx (t : Alloy.Tx) : List Nat :=
  [t.signer, t.payload]

/-- Modelled from the spec: transaction decoding for the model transaction
type. -/
def decodeTx : List Nat → Option (Alloy.Tx × List Nat)
  | s :: p :: rest => some (⟨s, p⟩, rest)
  | _ => none

/-- A length-prefixed encoding of an ordered sequence of items. -/
def encodeSeq {α : Type} (enc : α → List Nat) (xs : List α) : List Nat :=
  xs.length :: (xs.map enc).flatten

/-- Decode exactly `n` items from the stream. -/
def decodeItems {α : Type} (dec : List Nat → Option (α × List Nat)) :
    Nat → List Nat → Option (List α × List Nat)
  | 0, l => some ([], l)
  | n + 1, l =>
    match dec l with
    | some (x, rest) =>
      match decodeItems dec n rest with
      | some (xs, rest2) => some (x :: xs, rest2)
      | none => none
    | none => none

/-- Decode a length-prefixed sequence of items. -/
def decodeSeq {α : Type} (dec : List Nat → Option (α × List Nat))
    (l : List Nat) : Option (List α × List Nat) :=
  match l with
  | [] => none
  | n :: rest => decodeItems dec n rest

/-- Modelled from the spec: body encoding is the transaction sequence followed
by the ommer sequence, each length-prefixed. -/
def encodeBody {T : Type} (encTx : T → List Nat) (b : Alloy.BlockBody T) : List Nat :=
  encodeSeq encTx b.transactions ++ encodeSeq encodeHeader b.ommers

/-- Modelled from the spec: body decoding, the inverse of `encodeBody`. -/
def decodeBody {T : Type} (decTx : List Nat → Option (T × List Nat))
    (l : List Nat) : Option (Alloy.BlockBody T × List Nat) :=
  match decodeSeq decTx l with
  | some (txs, rest) =>
    match decodeSeq decodeHeader rest with
    | some (oms, rest2) => some (⟨txs, oms⟩, rest2)
    | none => none
  | none => none

/-- Modelled from the spec: block encoding is header encoding followed by body
encoding. -/
def encodeBlock {T : Type} (encTx : T → List Nat) (b : Alloy.Block T) : List Nat :=
  encodeHeader b.header ++ encodeBody encTx b.body

/-- Modelled from the spec: block decoding, the inverse of `encodeBlock`;
fails on trailing garbage or malformed input. -/
def decodeBlock {T : Type} (decTx : List Nat → Option (T × List Nat))
    (l : List Nat) : Option (Alloy.Block T) :=
  match decodeHeader l with
  | some (h, rest) =>
    match decodeBody decTx rest with
    | some (bd, rest2) => if rest2 = [] then some ⟨h, bd⟩ else none
    | none => none
  | none => none

/-- A decoder is a left inverse of an encoder on streams: decoding an encoded
item from the front of any stream yields the item and the remainder. -/
def StreamInverse {α : Type} (enc : α → List Nat)
    (dec : List Nat → Option (α × List Nat)) : Prop :=
  ∀ (x : α) (rest : List Nat), dec (enc x ++ rest) = some (x, rest)

theorem decodeHeader_encodeHeader :
    StreamInverse encodeHeader decodeHeader := by
  intro h rest
  rfl

theorem decodeTx_encodeTx : StreamInverse encodeTx decodeTx := by
  intro t rest
  rfl

theorem decodeItems_encode {α : Type} (enc : α → List Nat)
    (dec : List Nat → Option (α × List Nat)) (hinv : StreamInverse enc dec) :
    ∀ (xs : List α) (rest : List Nat),
      decodeItems dec xs.length ((xs.map enc).flatten ++ rest) = some (xs, rest) := by
  intro xs
  induction xs with
  | nil => intro rest; rfl
  | cons x xs ih =>
    intro rest
    simp only [List.map_cons, List.flatten_cons, List.length_cons, decodeItems,
      List.append_assoc, hinv x, ih rest]

theorem decodeSeq_encodeSeq {α : Type} (enc : α → List Nat)
    (dec : List Nat → Option (α × List Nat)) (hinv : StreamInverse enc dec) :
    StreamInverse (encodeSeq enc) (decodeSeq dec) := by
  intro xs rest
  simp only [encodeSeq, decodeSeq, List.cons_append]
  exact decodeItems_encode enc dec hinv xs rest

theorem decodeBody_encodeBody {T : Type} (encTx : T → List Nat)
    (decTx : List Nat → Option (T × List Nat)) (hinv : StreamInverse encTx decTx) :
    StreamInverse (encodeBody encTx) (decodeBody decTx) := by
  intro b rest
  simp only [encodeBody, decodeBody, List.append_assoc,
    decodeSeq_encodeSeq encTx decTx hinv b.transactions,
    decodeSeq_encodeSeq encodeHeader decodeHeader decodeHeader_encodeHeader b.ommers]

theorem decodeBlock_encodeBlock {T : Type} (encTx : T → List Nat)
    (decTx : List Nat → Option (T × List Nat)) (hinv : StreamInverse encTx decTx)
    (b : Alloy.Block T) :
    decodeBlock decTx (encodeBlock encTx b) = some b := by
  have hb := decodeBody_encodeBody encTx decTx hinv b.body ([] : List Nat)
  simp only [List.append_nil] at hb
  have hh := decodeHeader_encodeHeader b.header (encodeBody encTx b.body)
  simp only [encodeBlock, decodeBlock, hh, hb, if_true]

end Codec

/-- The `BlockBody` contract (trait `BlockBody`, declared in the sibling
`body` module).  Modelled from the spec: a body exposes an associated
transaction type, an associated ommer-header type, and read access to the
ordered transaction sequence and the ordered ommer sequence. -/
structure BlockBodyClass (Body : Type) where
  Transaction : Type
  OmmerHeader : Type
  transactions : Body → List Transaction
  ommers : Body → List OmmerHeader

/-- The `Block` contract (trait `Block`): an associated header type, an
associated body type whose declared ommer-header type is bound to equal the
header type (`type Body: BlockBody<OmmerHeader = Self::Header>`), and the four
operations `new`, `header`, `body`, `split`, all total functions. -/
structure BlockClass (B : Type) where
  Header : Type
  Body : Type
  bodyClass : BlockBodyClass Body
  ommer_eq : bodyClass.OmmerHeader = Header
  new : Header → Body → B
  header : B → Header
  body : B → Body
  split : B → Header × Body

/-- The `BlockBody` instance of the reference body type: transactions and
ommers are the fields, the ommer-header type is the header type itself. -/
def Alloy.blockBodyClass (T : Type) : BlockBodyClass (Alloy.BlockBody T) where
  Transaction := T
  OmmerHeader := Alloy.Header
  transactions := Alloy.BlockBody.transactions
  ommers := Alloy.BlockBody.ommers

/-- The `Block` instance of the reference block type
(`impl<T> Block for alloy_consensus::Block<T>` in the source). -/
def Alloy.blockClass (T : Type) : BlockClass (Alloy.Block T) where
  Header := Alloy.Header
  Body := Alloy.BlockBody T
  bodyClass := Alloy.blockBodyClass T
  ommer_eq := rfl
  new := Alloy.Block.new
  header := Alloy.Block.header
  body := Alloy.Block.body
  split := Alloy.Block.split

/-- The opaque capability sets this layer consumes but does not define:
the full-header and full-body capability sets and the wire encode / decode
capabilities.  Modelled from the spec: this core treats each as a
compile-time-checked capability of a type, opaque beyond its existence. -/
structure Capabilities where
  FullBlockHeader : Type → Prop
  FullBlockBody : Type → Prop
  Encodable : Type → Prop
  Decodable : Type → Prop

/-- The `FullBlock` classification (trait `FullBlock` with its blanket impl):
a witness that a type satisfies the `Block` contract, that its header and body
satisfy the full capability sets, and that the type supports wire encode and
decode.  No further data: the classification carries nothing beyond these
bounds. -/
structure FullBlockClass (C : Capabilities) (B : Type) where
  blockClass : BlockClass B
  fullHeader : C.FullBlockHeader blockClass.Header
  fullBody : C.FullBlockBody blockClass.Body
  enc : C.Encodable B
  dec : C.Decodable B

/-- Claim C1: for the reference block implementation, for every header h and
body b, constructing a block with new(h, b) and then calling split on it
returns exactly the pair (h, b). -/
theorem new_split_roundtrip (T : Type) (h : Alloy.Header) (b : Alloy.BlockBody T) :
    (Alloy.Block.new h b).split = (h, b) :=
  rfl

/-- Claim C2: for the reference block implementation, the block produced by
new(h, b) satisfies header() = h and body() = b: the accessors return the
exact components the block was constructed from, with no transformation. -/
theorem new_header_body (T : Type) (h : Alloy.Header) (b : Alloy.BlockBody T) :
    (Alloy.Block.new h b).header = h ∧ (Alloy.Block.new h b).body = b :=
  ⟨rfl, rfl⟩

/-- Claim C3: new, header, body and split are total and infallible: each is a
total function (no Option or error result in its type) and returns a value on
every valid input. -/
theorem ops_total (T : Type) :
    (∀ (h : Alloy.Header) (bd : Alloy.BlockBody T),
      ∃ blk : Alloy.Block T, Alloy.Block.new h bd = blk) ∧
    (∀ blk : Alloy.Block T, ∃ h : Alloy.Header, blk.header = h) ∧
    (∀ blk : Alloy.Block T, ∃ bd : Alloy.BlockBody T, blk.body = bd) ∧
    (∀ blk : Alloy.Block T, ∃ p : Alloy.Header × Alloy.BlockBody T, blk.split = p) :=
  ⟨fun _ _ => ⟨_, rfl⟩, fun _ => ⟨_, rfl⟩, fun _ => ⟨_, rfl⟩, fun _ => ⟨_, rfl⟩⟩

/-- Claim C4: for every type satisfying the Block contract, the body's
ommer-header associated type equals the block's header type (the bound is part
of the contract itself); in particular the reference implementation declares
its ommer-header type to be exactly its header type. -/
theorem ommer_header_type_eq :
    (∀ (B : Type) (c : BlockClass B), c.bodyClass.OmmerHeader = c.Header) ∧
    (∀ T : Type, (Alloy.blockClass T).bodyClass.OmmerHeader = (Alloy.blockClass T).Header) :=
  ⟨fun _ c => c.ommer_eq, fun _ => rfl⟩

/-- Claim C5: two reference blocks are equal iff their headers are equal and
their bodies are equal, body equality being element-wise, in-order equality of
the transaction sequences and of the ommer sequences; nothing outside the
(header, body) pair matters. -/
theorem block_eq_iff (T : Type) (b1 b2 : Alloy.Block T) :
    b1 = b2 ↔
      b1.header = b2.header ∧
      (b1.body.transactions.length = b2.body.transactions.length ∧
        ∀ (i : Nat) (hi1 : i < b1.body.transactions.length)
          (hi2 : i < b2.body.transactions.length),
          b1.body.transactions.get ⟨i, hi1⟩ = b2.body.transactions.get ⟨i, hi2⟩) ∧
      (b1.body.ommers.length = b2.body.ommers.length ∧
        ∀ (i : Nat) (hi1 : i < b1.body.ommers.length) (hi2 : i < b2.body.ommers.length),
          b1.body.ommers.get ⟨i, hi1⟩ = b2.body.ommers.get ⟨i, hi2⟩) := by
  constructor
  · rintro rfl
    exact ⟨rfl, ⟨rfl, fun _ _ _ => rfl⟩, ⟨rfl, fun _ _ _ => rfl⟩⟩
  · rintro ⟨hh, ⟨hlt, ht⟩, ⟨hlo, ho⟩⟩
    obtain ⟨h1, t1, o1⟩ := b1
    obtain ⟨h2, t2, o2⟩ := b2
    simp only at hh hlt ht hlo ho
    rw [Alloy.Block.mk.injEq, Alloy.BlockBody.mk.injEq]
    exact ⟨hh, List.ext_get hlt ht, List.ext_get hlo ho⟩

/-- Claim C6: decoding the canonical binary encoding of a constructed block
yields the block back, given that the transaction codec is itself a stream
inverse (the transaction type and its codec are supplied externally). -/
theorem decode_encode_block (T : Type) (encTx : T → List Nat)
    (decTx : List Nat → Option (T × List Nat)) (hinv : Codec.StreamInverse encTx decTx)
    (b : Alloy.Block T) :
    Codec.decodeBlock decTx (Codec.encodeBlock encTx b) = some b :=
  Codec.decodeBlock_encodeBlock encTx decTx hinv b

/-- Witness for claim C6: the round-trip at a concrete block with one
transaction and one ommer, for the model transaction codec. -/
theorem decode_encode_block_witness :
    Codec.decodeBlock Codec.decodeTx
        (Codec.encodeBlock Codec.encodeTx
          (Alloy.Block.new ⟨1, 2, 3, 4⟩ ⟨[⟨9, 10⟩], [⟨5, 6, 7, 8⟩]⟩)) =
      some (Alloy.Block.new ⟨1, 2, 3, 4⟩ ⟨[⟨9, 10⟩], [⟨5, 6, 7, 8⟩]⟩) :=
  decode_encode_block Alloy.Tx Codec.encodeTx Codec.decodeTx (fun _ _ => rfl) _

/-- Claim C7: the default block splits into the default header and the default
body (empty transactions, empty ommers), and round-trips through encode then
decode. -/
theorem default_block_split_and_roundtrip :
    (Alloy.Block.defaultVal Alloy.Tx).split =
      (Alloy.Header.defaultVal, Alloy.BlockBody.defaultVal Alloy.Tx) ∧
    (Alloy.BlockBody.defaultVal Alloy.Tx).transactions = [] ∧
    (Alloy.BlockBody.defaultVal Alloy.Tx).ommers = [] ∧
    Codec.decodeBlock Codec.decodeTx
        (Codec.encodeBlock Codec.encodeTx (Alloy.Block.defaultVal Alloy.Tx)) =
      some (Alloy.Block.defaultVal Alloy.Tx) :=
  ⟨rfl, rfl, rfl, rfl⟩

/-- Claim C8: on the default block, the test-only block-number setter with 42
makes header().number read 42 and leaves the body unchanged; and the
state-root setter with any 32-byte value, followed by encode then decode,
preserves exactly that state-root value. -/
theorem test_setters_frame :
    ((Alloy.Block.defaultVal Alloy.Tx).set_block_number 42).header.number = 42 ∧
    ((Alloy.Block.defaultVal Alloy.Tx).set_block_number 42).body =
      (Alloy.Block.defaultVal Alloy.Tx).body ∧
    ∀ s : Nat, s < 2 ^ 256 →
      ((Alloy.Block.defaultVal Alloy.Tx).set_state_root s).header.state_root = s ∧
      Codec.decodeBlock Codec.decodeTx
          (Codec.encodeBlock Codec.encodeTx
            ((Alloy.Block.defaultVal Alloy.Tx).set_state_root s)) =
        some ((Alloy.Block.defaultVal Alloy.Tx).set_state_root s) :=
  ⟨rfl, rfl, fun _ _ =>
    ⟨rfl, Codec.decodeBlock_encodeBlock Codec.encodeTx Codec.decodeTx (fun _ _ => rfl) _⟩⟩

/-- Witness for claim C8: the state-root part at the concrete 32-byte value
0xdeadbeef. -/
theorem test_setters_frame_witness :
    (0xdeadbeef : Nat) < 2 ^ 256 ∧
    ((Alloy.Block.defaultVal Alloy.Tx).set_state_root 0xdeadbeef).header.state_root =
      0xdeadbeef :=
  ⟨by norm_num, (test_setters_frame.2.2 0xdeadbeef (by norm_num)).1⟩

/-- Claim C9: the full-block classification is exactly the conjunction of its
bounds: a type is FullBlock iff it satisfies the Block contract with a full
header and a full body and supports wire encode and decode; the blanket impl
gives the classification automatically and it carries nothing further. -/
theorem fullBlock_iff_bounds (C : Capabilities) (B : Type) :
    Nonempty (FullBlockClass C B) ↔
      ∃ c : BlockClass B, C.FullBlockHeader c.Header ∧ C.FullBlockBody c.Body ∧
        C.Encodable B ∧ C.Decodable B := by
  constructor
  · rintro ⟨f⟩
    exact ⟨f.blockClass, f.fullHeader, f.fullBody, f.enc, f.dec⟩
  · rintro ⟨c, hh, hb, he, hd⟩
    exact ⟨⟨c, hh, hb, he, hd⟩⟩

/-- Claim C10: the composition in the other direction is also the identity:
for every reference block b, new applied to the parts returned by split
reconstructs b exactly. -/
theorem split_new_roundtrip (T : Type) (b : Alloy.Block T) :
    Alloy.Block.new b.split.1 b.split.2 = b :=
  rfl
